import Mathlib

/-!
# godfs storage node: request handlers of `svc/storage_tcp_handler.go`

A shallow embedding of the TCP request handlers of the storage node
(`uploadFileHandler`, `downFileHandler`, `seekRead`, `inspectFileHandler`,
`storageClientConnHandler`) over an explicit model of the file system, the
binlog and the connection, followed by theorems about them.

Conventions.
* Go `int64` values are `Int`; arithmetic that can overflow goes through
  `wrapInt64`.
* Bytes are natural numbers below 256.
* A Go `error` is a value of `Err`; a function returning `(T, error)` returns
  `Except Err T`.
* The file system is a map from path to node; handlers take the file system
  (inside `World`) and return the new one.
-/

namespace Godfs

/-! ## Machine integers and bytes -/

abbrev Byte := Nat

/-- Two's-complement wrap-around of a mathematical integer into `int64`. -/
def wrapInt64 (x : Int) : Int := (x + 2 ^ 63) % 2 ^ 64 - 2 ^ 63

/-- Addition of two `int64` values as Go computes it. -/
def add64 (a b : Int) : Int := wrapInt64 (a + b)

/-- Subtraction of two `int64` values as Go computes it. -/
def sub64 (a b : Int) : Int := wrapInt64 (a - b)

def MaxInt64 : Int := 2 ^ 63 - 1

def MinInt64 : Int := -(2 ^ 63)

/-! ## Errors -/

/-- Go `error` values that the handlers see or create. -/
inductive Err where
  /-- An error reported by the operating system for operation `op` on `path`. -/
  | os (op path : String)
  /-- The value `io.EOF`. -/
  | EOF
  /-- The value `io.ErrUnexpectedEOF`. -/
  | ErrUnexpectedEOF
  /-- An error made with `errors.New(msg)`. -/
  | new (msg : String)
  /-- An error returned by a collaborator (body stream, number parser, network). -/
  | ext (msg : String)
  /-- A run-time panic (slice bounds out of range). -/
  | panic (msg : String)
  deriving DecidableEq, Repr

deriving instance DecidableEq for Except

/-- Text of an error, `err.Error()`. -/
def Err.Error : Err → String
  | .os op path => op ++ " " ++ path
  | .EOF => "EOF"
  | .ErrUnexpectedEOF => "unexpected EOF"
  | .new msg => msg
  | .ext msg => msg
  | .panic msg => msg

/-! ## File system -/

/-- What a path names: a regular file with its bytes and modification time
(milliseconds since the epoch), or a directory. -/
inductive Node where
  | file (content : List Byte) (modTime : Int)
  | dir (size : Nat) (modTime : Int)
  deriving DecidableEq, Repr

/-- `info.Size()` of a node. -/
def Node.Size : Node → Int
  | .file content _ => (content.length : Int)
  | .dir size _ => (size : Int)

/-- `info.ModTime()` of a node, already in milliseconds. -/
def Node.ModTime : Node → Int
  | .file _ t => t
  | .dir _ t => t

abbrev FS := String → Option Node

/-- `file.Exists(path)`. -/
def FS.Exists (fs : FS) (path : String) : Bool := (fs path).isSome

/-- The directory part of a path given as characters read from the end:
`none` when the path has no slash. -/
def parentRev : List Char → Option (List Char)
  | [] => none
  | c :: cs => if c = '/' then some cs else parentRev cs

/-- The directory a path lies in: `none` for a bare name (current directory). -/
def parentDir (path : String) : Option String :=
  (parentRev path.data.reverse).map fun r => String.mk r.reverse

/-- Whether the directory that has to hold `path` is there. The current
directory and the root always are. -/
def FS.parentOk (fs : FS) (path : String) : Bool :=
  match parentDir path with
  | none => true
  | some d => if d = "" then true else
      match fs d with
      | some (.dir _ _) => true
      | _ => false

/-- Every proper prefix of the path that ends right before a slash, and the
path itself, shortest first, without the empty prefix. -/
def ancestorsAux : List Char → List Char → List (List Char)
  | acc, [] => if acc = [] then [] else [acc.reverse]
  | acc, c :: cs =>
      if c = '/' then
        (if acc = [] then [] else [acc.reverse]) ++ ancestorsAux (c :: acc) cs
      else ancestorsAux (c :: acc) cs

def ancestors (path : String) : List String :=
  (ancestorsAux [] path.data).map String.mk

/-- `file.CreateFile(path)`: create or truncate a regular file. -/
def FS.CreateFile (fs : FS) (path : String) (now : Int) : Except Err FS :=
  match fs path with
  | some (.dir _ _) => .error (.os "open" path)
  | _ =>
    if fs.parentOk path then .ok (Function.update fs path (some (.file [] now)))
    else .error (.os "open" path)

/-- `file.CreateDirs(path)`: make the directory and every missing ancestor. -/
def FS.CreateDirs (fs : FS) (path : String) (now : Int) : Except Err FS :=
  (ancestors path).foldl (fun acc d =>
    match acc with
    | .error e => .error e
    | .ok f =>
      match f d with
      | some (.file _ _) => .error (.os "mkdir" d)
      | some (.dir _ _) => .ok f
      | none => .ok (Function.update f d (some (.dir 0 now)))) (.ok fs)

/-- `file.MoveFile(src, dst)`: rename a regular file. -/
def FS.MoveFile (fs : FS) (src dst : String) : Except Err FS :=
  match fs src with
  | some (.file content t) =>
    match fs dst with
    | some (.dir _ _) => .error (.os "rename" dst)
    | _ =>
      if fs.parentOk dst then
        .ok (Function.update (Function.update fs src none) dst (some (.file content t)))
      else .error (.os "rename" dst)
  | _ => .error (.os "rename" src)

/-- `file.Delete(path)`: remove a regular file; any failure is ignored by the caller. -/
def FS.Delete (fs : FS) (path : String) : FS :=
  match fs path with
  | some (.file _ _) => Function.update fs path none
  | _ => fs

/-- `f.Seek(offset, whence)` on a file of the given size whose cursor is at
`pos`: whence 0 is the start, 1 the cursor, 2 the end. The operating system
refuses a negative result and one that does not fit `int64`. -/
def Seek (size pos offset : Int) (whence : Nat) : Except Err Int :=
  let base : Int := match whence with
    | 0 => 0
    | 1 => pos
    | _ => size
  let target := base + offset
  if target < 0 then .error (.os "seek" "invalid argument")
  else if MaxInt64 < target then .error (.os "seek" "value too large")
  else .ok target

/-- Bytes that one or more `Read` calls into a buffer of `n` bytes obtain from
a regular file whose cursor is at `pos`. -/
def readAt (content : List Byte) (pos : Int) (n : Nat) : List Byte :=
  (content.drop pos.toNat).take n

/-- `io.ReadAtLeast(f, buf, min)` with `len(buf) = n` on a regular file. -/
def ReadAtLeast (content : List Byte) (pos : Int) (n min : Nat) : Except Err (List Byte) :=
  let got := readAt content pos n
  if min ≤ got.length then .ok got
  else if got.length = 0 then .error .EOF
  else .error .ErrUnexpectedEOF

/-- `f.Write(data)` at cursor `pos` of a regular file: overwrite in place,
extending the file (with a hole of zero bytes when the cursor is past the end). -/
def writeAt (content : List Byte) (pos : Int) (data : List Byte) : List Byte :=
  let p := pos.toNat
  content.take p ++ List.replicate (p - content.length) 0 ++ data
    ++ content.drop (p + data.length)

/-! ## Readers handed back to the connection -/

/-- `io.LimitReader(fi, N)` over an open file whose cursor is at `pos`. -/
structure LimitedReader where
  src : Node
  pos : Int
  N : Int
  deriving DecidableEq, Repr

/-- Everything the reader yields until it reports the end of the stream. -/
def LimitedReader.readAll (r : LimitedReader) : Except Err (List Byte) :=
  if r.N ≤ 0 then .ok []
  else match r.src with
    | .file content _ => .ok (readAt content r.pos r.N.toNat)
    | .dir _ _ => .error (.os "read" "is a directory")

/-- The positions of the underlying file that the reader hands out:
`[pos, min (pos + N) size)`. -/
def LimitedReader.positions (r : LimitedReader) : List Nat :=
  if r.N ≤ 0 then []
  else (List.range r.src.Size.toNat).filter fun i => r.pos.toNat ≤ i ∧ i < r.pos.toNat + r.N.toNat

/-! ## seekRead -/

/-- `seekRead(fullPath, offset, length)`. -/
def seekRead (fs : FS) (fullPath : String) (offset length : Int) :
    Except Err (LimitedReader × Int) :=
  if !fs.Exists fullPath then .error (.new "file not found")
  else match fs fullPath with
    | none => .error (.os "open" fullPath)
    | some info =>
      if info.Size < 4 then .error (.new "invalid format file")
      else
        let offset := if offset ≥ sub64 info.Size 4 then sub64 info.Size 4 else offset
        let length :=
          if length = -1 ∨ add64 offset length ≥ sub64 info.Size 4 then
            sub64 (sub64 info.Size 4) offset
          else length
        match Seek info.Size 0 offset 0 with
        | .error e => .error e
        | .ok pos => .ok (⟨info, pos, length⟩, length)

/-! ## Strings -/

/-- `strings.ToUpper` on ASCII text. -/
def ToUpper (s : String) : String := String.mk (s.data.map Char.toUpper)

/-- The Go slice expression `s[i:j]` on ASCII text. -/
def slice (s : String) (i j : Nat) : String := String.mk ((s.data.drop i).take (j - i))

/-- `strings.Join(parts, sep)`. -/
def Join : List String → String → String
  | [], _ => ""
  | [a], _ => a
  | a :: b :: rest, sep => a ++ sep ++ Join (b :: rest) sep

/-- Membership in the character class `[0-9]`. -/
def isDecimal (c : Char) : Bool := 48 ≤ c.toNat && c.toNat ≤ 57

/-- Value of a run of decimal digits, most significant first. -/
def digitsValue (ds : List Char) : Nat :=
  ds.foldl (fun acc c => 10 * acc + (c.toNat - 48)) 0

/-- `convert.StrToInt64(s)`, that is `strconv.ParseInt(s, 10, 64)`: an optional
sign, at least one decimal digit and nothing else, the value inside `int64`. -/
def StrToInt64 (s : String) : Except Err Int :=
  let body (neg : Bool) (ds : List Char) : Except Err Int :=
    if ds = [] ∨ !ds.all isDecimal then .error (.ext "invalid syntax")
    else
      let v : Int := if neg then -(digitsValue ds : Int) else (digitsValue ds : Int)
      if v < MinInt64 ∨ MaxInt64 < v then .error (.ext "value out of range") else .ok v
  match s.data with
  | '-' :: ds => body true ds
  | '+' :: ds => body false ds
  | ds => body false ds

/-! ## File identifiers -/

/-- Membership in the character class `[0-9A-F]`. -/
def isUpperHex (c : Char) : Bool := isDecimal c || (65 ≤ c.toNat && c.toNat ≤ 70)

/-- Membership in the character class `[0-9a-f]`. -/
def isLowerHex (c : Char) : Bool := isDecimal c || (97 ≤ c.toNat && c.toNat ≤ 102)

/-- A hexadecimal digit of either case. -/
def isHexDigit (c : Char) : Bool := isLowerHex c || isUpperHex c

/-- The pieces of a text between its slashes. -/
def splitSlash : List Char → List (List Char)
  | [] => [[]]
  | c :: cs =>
    if c = '/' then [] :: splitSlash cs
    else match splitSlash cs with
      | [] => [[c]]
      | h :: t => (c :: h) :: t

/-- Modelled from the spec: `common.FileIdPatternRegexp`, declared outside
this file, is the regular expression
`^([^/]+)/([0-9A-F]{2})/([0-9A-F]{2})/([0-9a-f]{32})$`. The result is the four
capture groups of a match, or `none` when the text does not match. -/
def FileIdPatternRegexp (fileId : String) : Option (String × String × String × String) :=
  match splitSlash fileId.data with
  | [g, d1, d2, m] =>
    if g ≠ [] ∧ d1.length = 2 ∧ d1.all isUpperHex ∧ d2.length = 2 ∧ d2.all isUpperHex
        ∧ m.length = 32 ∧ m.all isLowerHex then
      some (String.mk g, String.mk d1, String.mk d2, String.mk m)
    else none
  | _ => none

/-! ## Frames -/

/-- Modelled from the spec: the result codes of `common`, declared outside
this file. -/
inductive Result where
  | SUCCESS | ERROR | NOT_FOUND | UNAUTHORIZED | UNKNOWN_OPERATION
  | other (code : Nat)
  deriving DecidableEq, Repr

/-- Modelled from the spec: the operation codes of `common`, declared outside
this file (CONNECT 1, UPLOAD 2, DOWNLOAD 3, QUERY 4). -/
def OPERATION_CONNECT : Int := 1
def OPERATION_UPLOAD : Int := 2
def OPERATION_DOWNLOAD : Int := 3
def OPERATION_QUERY : Int := 4

/-- `common.Header`. A `nil` attribute map is `none`. -/
structure Header where
  Operation : Int := 0
  Result : Result
  Msg : String := ""
  Attributes : Option (List (String × String)) := none
  deriving DecidableEq, Repr

/-- `header.Attributes[key]`: the empty string when the key or the map is absent. -/
def Header.attr (h : Header) (key : String) : String :=
  match h.Attributes with
  | none => ""
  | some m => (m.lookup key).getD ""

/-- `common.FileInfo`. -/
structure FileInfo where
  Group : String
  FileId : String
  FileLength : Int
  CreateTime : Int
  deriving DecidableEq, Repr

/-- Modelled from the spec: a binlog record as `binlog.CreateLocalBinlog`
(outside this file) builds it from the file identifier, the payload length
and the instance identifier. -/
structure BinlogRecord where
  fid : String
  bodyLength : Int
  instanceId : String
  deriving DecidableEq, Repr

def CreateLocalBinlog (fid : String) (bodyLength : Int) (instanceId : String) : BinlogRecord :=
  ⟨fid, bodyLength, instanceId⟩

/-! ## Environment and world -/

/-- The configuration singleton and the collaborators whose code is outside
this file, taken as parameters. -/
structure Env where
  TmpDir : String
  DataDir : String
  Group : String
  InstanceId : String
  Secret : String
  /-- `util.GetCrc32HashString` of a CRC-32 hasher that was fed these bytes. -/
  crc32String : List Byte → String
  /-- `util.GetMd5HashString` of an MD5 hasher that was fed these bytes. -/
  md5String : List Byte → String
  /-- `authenticationHandler(header, secret)`; the returned reply has no body. -/
  authenticationHandler : Header → String → Except Err Header
  /-- `json.Marshal` of a `common.FileInfo`, as text. -/
  marshalFileInfo : FileInfo → String

/-- Everything a handler can change or consult besides its arguments. -/
structure World where
  fs : FS
  /-- Records the binlog manager has appended, oldest first. -/
  binlog : List BinlogRecord
  /-- When set, the next `writableBinlogManager.Write` fails with this error. -/
  binlogFault : Option Err
  /-- The clock, in milliseconds since the epoch. -/
  now : Int

/-- Modelled from the spec: `writableBinlogManager.Write` (outside this file)
appends the record atomically or fails and appends nothing. -/
def World.binlogWrite (w : World) (r : BinlogRecord) : Except Err World :=
  match w.binlogFault with
  | some e => .error e
  | none => .ok { w with binlog := w.binlog ++ [r] }

/-- What a handler returns: `(*common.Header, io.Reader, int64, error)`. -/
structure Reply where
  header : Option Header
  body : Option LimitedReader
  length : Int
  err : Option Err
  deriving DecidableEq, Repr

/-! ## Upload -/

/-- One result of `bodyReader.Read(buffer)`: the bytes placed in the buffer
and the error. -/
structure ReadResult where
  data : List Byte
  err : Option Err
  deriving DecidableEq, Repr

/-- The body stream as the successive results of `Read`; once they are used up
every further `Read` gives no bytes and `io.EOF`. -/
abbrev BodyReader := List ReadResult

def tailRefCount : List Byte := [0, 0, 0, 0]

/-- `convert.Bytes2Length`: eight big-endian bytes as an `int64`. -/
def Bytes2Length (bs : List Byte) : Int :=
  wrapInt64 ((bs.foldl (fun acc b => 256 * acc + b % 256) 0 : Nat) : Int)

/-- `convert.Length2Bytes`: an `int64` as eight big-endian bytes. -/
def Length2Bytes (len : Int) : List Byte :=
  let u := (len % 2 ^ 64).toNat
  (List.range 8).map fun i => u / 256 ^ (7 - i) % 256

/-- The else-branch of `uploadFileHandler` that runs when the target file is
already there ("increase file reference count"). -/
def increaseRefCount (fs : FS) (targetFile : String) (now : Int) : Except Err FS :=
  match fs targetFile with
  | some (.file content _) =>
    let size : Int := content.length
    let tailRefBytes : List Byte := List.replicate 8 0
    match Seek size 0 4 2 with
    | .error e => .error e
    | .ok pos =>
      match ReadAtLeast content pos 4 4 with
      | .error e => .error e
      | .ok got =>
        let tailRefBytes := tailRefBytes.take 4 ++ got
        let count := Bytes2Length tailRefBytes
        let count := add64 count 1
        let tailRefBytes := Length2Bytes count
        match Seek size (pos + got.length) 4 2 with
        | .error e => .error e
        | .ok pos =>
          .ok (Function.update fs targetFile
            (some (.file (writeAt content pos (tailRefBytes.drop 5)) now)))
  | _ => .error (.os "open" targetFile)

/-- The first shard directory of a CRC-32 text: `crc[len-4 : len-2]` in upper case. -/
def shard1 (crc : String) : String := ToUpper (slice crc (crc.length - 4) (crc.length - 2))

/-- The second shard directory of a CRC-32 text: `crc[len-2 :]` in upper case. -/
def shard2 (crc : String) : String := ToUpper (slice crc (crc.length - 2) crc.length)

/-- The part of `uploadFileHandler` that runs when a `Read` gives no bytes:
footer, length check, naming, commit or increment, binlog, reply. -/
def uploadFinish (env : Env) (w : World) (tmpFileName : String) (bodyLength realRead : Int)
    (hashed out : List Byte) : Reply × World :=
  let written : Node := .file (out ++ tailRefCount) w.now
  let w := { w with fs := Function.update w.fs tmpFileName (some written) }
  if bodyLength ≠ realRead then (⟨none, none, 0, some (.new "mismatch body length")⟩, w)
  else
    let crc32String := env.crc32String hashed
    let md5String := env.md5String hashed
    if crc32String.length < 4 then (⟨none, none, 0, some (.panic "slice bounds out of range")⟩, w)
    else
      let targetDir := ToUpper (Join [slice crc32String (crc32String.length - 4)
        (crc32String.length - 2), "/", slice crc32String (crc32String.length - 2)
        crc32String.length] "")
      let targetLoc := env.DataDir ++ "/" ++ targetDir
      let targetFile := env.DataDir ++ "/" ++ targetDir ++ "/" ++ md5String
      let finalFileId := env.Group ++ "/" ++ targetDir ++ "/" ++ md5String
      match (if !w.fs.Exists targetLoc then w.fs.CreateDirs targetLoc w.now else .ok w.fs) with
      | .error e => (⟨none, none, 0, some e⟩, w)
      | .ok fs =>
        let w := { w with fs := fs }
        match (if !w.fs.Exists targetFile then w.fs.MoveFile tmpFileName targetFile
               else increaseRefCount w.fs targetFile w.now) with
        | .error e => (⟨none, none, 0, some e⟩, w)
        | .ok fs =>
          let w := { w with fs := fs }
          match w.binlogWrite (CreateLocalBinlog finalFileId bodyLength env.InstanceId) with
          | .error e => (⟨none, none, 0, some (.new ("error writing binlog: " ++ e.Error))⟩, w)
          | .ok w =>
            (⟨some { Result := .SUCCESS, Attributes := some [("fid", finalFileId),
                ("instanceId", env.InstanceId), ("group", env.Group)] }, none, 0, none⟩, w)

/-- The read loop of `uploadFileHandler`: `realRead` counts the bytes, `hashed`
is what both hashers were fed, `out` what the temporary file has received.
Writing to a hasher or to the open temporary file does not fail. -/
def uploadLoop (env : Env) (w : World) (tmpFileName : String) (bodyLength : Int) :
    BodyReader → Int → List Byte → List Byte → Reply × World
  | [], realRead, hashed, out => uploadFinish env w tmpFileName bodyLength realRead hashed out
  | r :: rest, realRead, hashed, out =>
    let realRead := realRead + r.data.length
    if r.err.isSome ∧ r.err ≠ some .EOF then (⟨none, none, 0, r.err⟩, w)
    else if r.data.length > 0 then
      uploadLoop env w tmpFileName bodyLength rest realRead (hashed ++ r.data) (out ++ r.data)
    else uploadFinish env w tmpFileName bodyLength realRead hashed out

/-- The error other than `io.EOF` at which the read loop gives up, if any. -/
def BodyReader.failure : BodyReader → Option Err
  | [] => none
  | r :: rest =>
    if r.err.isSome ∧ r.err ≠ some .EOF then r.err
    else if r.data.length > 0 then BodyReader.failure rest
    else none

/-- The bytes the read loop takes from the stream before it stops: it stops at
the first `Read` that gives no bytes or an error other than `io.EOF`. -/
def BodyReader.consumed : BodyReader → List Byte
  | [] => []
  | r :: rest =>
    if r.err.isSome ∧ r.err ≠ some .EOF then []
    else if r.data.length > 0 then r.data ++ BodyReader.consumed rest
    else []

/-- All the bytes the stream yields. -/
def BodyReader.bytes (r : BodyReader) : List Byte := (r.map fun x => x.data).flatten

/-- `uploadFileHandler(bodyReader, bodyLength)`; `uuid` is the value `uuid.UUID()`
gives this call. The deferred close and delete of the temporary file run on
every way out once the file was created. -/
def uploadFileHandler (env : Env) (w : World) (uuid : String) (bodyReader : BodyReader)
    (bodyLength : Int) : Reply × World :=
  let tmpFileName := env.TmpDir ++ "/" ++ uuid
  match w.fs.CreateFile tmpFileName w.now with
  | .error e => (⟨none, none, 0, some e⟩, w)
  | .ok fs =>
    let r := uploadLoop env { w with fs := fs } tmpFileName bodyLength bodyReader 0 [] []
    (r.1, { r.2 with fs := r.2.fs.Delete tmpFileName })

/-! ## Download and inspect -/

/-- `downFileHandler(header)`. -/
def downFileHandler (env : Env) (w : World) (header : Header) : Reply :=
  let fileId := header.attr "fileId"
  match FileIdPatternRegexp fileId with
  | none => ⟨some { Result := .NOT_FOUND }, none, 0, none⟩
  | some (_, p1, p2, md5) =>
    if header.Attributes = none then ⟨some { Result := .NOT_FOUND }, none, 0, none⟩
    else match StrToInt64 (header.attr "offset") with
      | .error _ => ⟨some { Result := .NOT_FOUND }, none, 0, none⟩
      | .ok offset =>
        match StrToInt64 (header.attr "length") with
        | .error _ => ⟨some { Result := .NOT_FOUND }, none, 0, none⟩
        | .ok length =>
          let fullPath := Join [env.DataDir, p1, p2, md5] "/"
          match seekRead w.fs fullPath offset length with
          | .error err => ⟨some { Result := .ERROR }, none, 0, some err⟩
          | .ok (readyReader, realLen) =>
            ⟨some { Result := .SUCCESS }, some readyReader, realLen, none⟩

/-- `inspectFileHandler(header)`. The second and third existence checks of the
source look at the same file system as the first one, so here they are the
`none` case of the lookup. -/
def inspectFileHandler (env : Env) (w : World) (header : Header) : Reply :=
  let fileId := header.attr "fileId"
  match FileIdPatternRegexp fileId with
  | none => ⟨some { Result := .NOT_FOUND }, none, 0, none⟩
  | some (_, p1, p2, md5) =>
    if header.Attributes = none then ⟨some { Result := .NOT_FOUND }, none, 0, none⟩
    else
      let fullPath := Join [env.DataDir, p1, p2, md5] "/"
      if !w.fs.Exists fullPath then ⟨some { Result := .NOT_FOUND }, none, 0, none⟩
      else match w.fs fullPath with
        | none => ⟨some { Result := .ERROR }, none, 0, some (.os "open" fullPath)⟩
        | some info =>
          let finfo : FileInfo := {
            Group := env.Group
            FileId := fileId
            FileLength := info.Size
            CreateTime := info.ModTime }
          let bs := env.marshalFileInfo finfo
          ⟨some { Result := .SUCCESS, Attributes := some [("info", bs)] }, none, 0, none⟩

/-! ## Connection handler -/

/-- One frame as `pip.Receive` hands it to the callback, with the two values
the surroundings supply while it is handled: the UUID an upload draws and the
outcome of `pip.Send` for the reply. -/
structure Frame where
  header : Option Header
  bodyReader : BodyReader
  bodyLength : Int
  uuid : String
  sendErr : Option Err

/-- What `pip.Receive` does next: decode a frame and call the callback, or fail. -/
inductive Received where
  | frame (f : Frame)
  | decodeError (e : Err)

/-- What the connection handler does that can be seen from outside. `invoke`
marks the start of a file handler and records the value of `authorized` at
that moment. -/
inductive Event where
  | send (h : Header) (body : Option LimitedReader) (length : Int)
  | invoke (operation : Int) (authorized : Bool)
  | close
  deriving DecidableEq, Repr

structure ConnState where
  authorized : Bool
  world : World

/-- `pip.Send(h, b, l)`: the event and the error the call returns. -/
def pipSend (f : Frame) (r : Reply) (h : Header) : Option Err × List Event :=
  (f.sendErr, [.send h r.body r.length])

/-- The reply of a handler as the callback treats it: an error is returned
as it is, otherwise the reply is sent. -/
def sendReply (f : Frame) (r : Reply) : Option Err × List Event :=
  match r.err with
  | some e => (some e, [])
  | none =>
    match r.header with
    | some h => pipSend f r h
    | none => (some (.panic "nil header"), [])

/-- The callback given to `pip.Receive` in `storageClientConnHandler`: the
error it returns, the new state and the events. -/
def frameCallback (env : Env) (s : ConnState) (f : Frame) : Option Err × ConnState × List Event :=
  match f.header with
  | none => (some (.new "invalid request: header is empty"), s, [])
  | some header =>
    if header.Operation = OPERATION_CONNECT then
      match env.authenticationHandler header env.Secret with
      | .error err => (some err, s, [])
      | .ok h =>
        if h.Result ≠ .SUCCESS then
          (some (.new "unauthorized connection, force disconnection by server"), s,
            [.send h none 0])
        else
          (f.sendErr, { s with authorized := true }, [.send h none 0])
    else if !s.authorized then
      (some (.new "unauthorized connection, force disconnection by server"), s,
        [.send { Result := .UNAUTHORIZED, Msg := "authentication failed" } none 0])
    else if header.Operation = OPERATION_UPLOAD then
      let r := uploadFileHandler env s.world f.uuid f.bodyReader f.bodyLength
      let o := sendReply f r.1
      (o.1, { s with world := r.2 }, .invoke OPERATION_UPLOAD s.authorized :: o.2)
    else if header.Operation = OPERATION_DOWNLOAD then
      let o := sendReply f (downFileHandler env s.world header)
      (o.1, s, .invoke OPERATION_DOWNLOAD s.authorized :: o.2)
    else if header.Operation = OPERATION_QUERY then
      let o := sendReply f (inspectFileHandler env s.world header)
      (o.1, s, .invoke OPERATION_QUERY s.authorized :: o.2)
    else
      (f.sendErr, s, [.send { Result := .UNKNOWN_OPERATION, Msg := "unknown operation" } none 0])

/-- The receive loop of `storageClientConnHandler` from a given state: it ends,
closing the connection, at the first error of `pip.Receive` (a decode error,
the end of the input, or an error returned by the callback). -/
def connLoop (env : Env) : ConnState → List Received → ConnState × List Event
  | s, [] => (s, [.close])
  | s, .decodeError _ :: _ => (s, [.close])
  | s, .frame f :: rest =>
    match frameCallback env s f with
    | (some _, s', evs) => (s', evs ++ [.close])
    | (none, s', evs) =>
      let r := connLoop env s' rest
      (r.1, evs ++ r.2)

/-- `storageClientConnHandler(conn)`: the loop starts unauthorized. -/
def storageClientConnHandler (env : Env) (w : World) (input : List Received) :
    ConnState × List Event :=
  connLoop env { authorized := false, world := w } input

/-! ## A concrete node for the scenarios -/

/-- The body `hello`. -/
def helloBytes : List Byte := [104, 101, 108, 108, 111]

/-- A JSON rendering of `common.FileInfo` for the scenarios. -/
def demoMarshal (i : FileInfo) : String :=
  "\x7b\"group\":\"" ++ i.Group ++ "\",\"fileId\":\"" ++ i.FileId ++ "\",\"fileLength\":"
    ++ toString i.FileLength ++ ",\"createTime\":" ++ toString i.CreateTime ++ "\x7d"

/-- A node of group `G01`. The digest functions are a table holding the CRC-32
and MD5 of `hello` and, for any other body, those of the empty body. -/
def demoEnv : Env where
  TmpDir := "tmp"
  DataDir := "data"
  Group := "G01"
  InstanceId := "node1"
  Secret := "s3cret"
  crc32String := fun b => if b = helloBytes then "3610a686" else "00000000"
  md5String := fun b =>
    if b = helloBytes then "5d41402abc4b2a76b9719d911017c592"
    else "d41d8cd98f00b204e9800998ecf8427e"
  authenticationHandler := fun h secret =>
    .ok { Result := if h.attr "secret" = secret then .SUCCESS else .UNAUTHORIZED }
  marshalFileInfo := demoMarshal

/-- A node that has stored nothing yet: only its two directories exist. -/
def freshFS : FS := fun p => if p = "tmp" ∨ p = "data" then some (.dir 0 0) else none

def freshWorld : World := ⟨freshFS, [], none, 1000⟩

def helloFid : String := "G01/A6/86/5d41402abc4b2a76b9719d911017c592"

def helloPath : String := "data/A6/86/5d41402abc4b2a76b9719d911017c592"

/-- The world after `hello` was uploaded once to the fresh node. -/
def helloWorld : World :=
  (uploadFileHandler demoEnv freshWorld "u1" [⟨helloBytes, none⟩] 5).2

/-- A request header with the given operation and attributes. -/
def request (operation : Int) (attrs : List (String × String)) : Header :=
  { Operation := operation, Result := .other 0, Attributes := some attrs }

/-- A download request for `hello`. -/
def helloDownload (offset length : String) : Header :=
  request OPERATION_DOWNLOAD [("fileId", helloFid), ("offset", offset), ("length", length)]

/-- The reply to the first upload of `hello`. -/
def helloReply : Header :=
  { Result := .SUCCESS, Attributes := some [("fid", helloFid), ("instanceId", "node1"),
      ("group", "G01")] }

/-- The object file of `hello`: the body and the four footer bytes. -/
def helloFile : Node := .file [104, 101, 108, 108, 111, 0, 0, 0, 0] 1000

/-- An inspect request for `hello`. -/
def helloInspect : Header := request OPERATION_QUERY [("fileId", helloFid)]

/-- An upload frame of the body `hello` that declares `bodyLength`. -/
def helloUpload (uuid : String) (bodyLength : Int) : Frame :=
  { header := some (request OPERATION_UPLOAD []), bodyReader := [⟨helloBytes, none⟩],
    bodyLength := bodyLength, uuid := uuid, sendErr := none }

/-- A frame without a body. -/
def plainFrame (header : Header) : Frame :=
  { header := some header, bodyReader := [], bodyLength := 0, uuid := "", sendErr := none }

/-- The CONNECT frame with the right secret. -/
def connectFrame : Frame := plainFrame (request OPERATION_CONNECT [("secret", "s3cret")])

/-! # Theorems -/

/-! ## Arithmetic and reading -/

theorem wrapInt64_of_range {x : Int} (h1 : MinInt64 ≤ x) (h2 : x ≤ MaxInt64) : wrapInt64 x = x := by
  unfold wrapInt64
  unfold MinInt64 at h1
  unfold MaxInt64 at h2
  omega

theorem readAt_payload (content : List Byte) (pos : Int) (l : Nat)
    (h : pos.toNat + l + 4 ≤ content.length) :
    readAt content pos l = ((content.take (content.length - 4)).drop pos.toNat).take l := by
  unfold readAt
  rw [List.drop_take, List.take_take]
  congr 1
  omega

/-- The value `seekRead` computes for a regular file, step by step. -/
theorem seekRead_file (fs : FS) (fullPath : String) (content : List Byte) (t offset length : Int)
    (hfile : fs fullPath = some (.file content t)) (hsize : 4 ≤ content.length) :
    seekRead fs fullPath offset length =
      (let p := sub64 content.length 4
       let o := if offset ≥ p then p else offset
       let l := if length = -1 ∨ add64 o length ≥ p then sub64 p o else length
       match Seek content.length 0 o 0 with
       | .error e => .error e
       | .ok pos => .ok (⟨.file content t, pos, l⟩, l)) := by
  have h4 : ¬ ((content.length : Int) < 4) := by omega
  simp only [seekRead, FS.Exists, hfile, Option.isSome_some, Bool.not_true, Bool.false_eq_true,
    if_false, Node.Size, h4]

/-- What `seekRead` and `downFileHandler` return for an offset and a length
that are not negative (or length -1) and whose sum fits `int64`. -/
theorem seekRead_clamp (fs : FS) (fullPath : String) (content : List Byte)
    (t offset length : Int)
    (hfile : fs fullPath = some (.file content t))
    (hsize : 4 ≤ content.length) (hfit : (content.length : Int) ≤ MaxInt64)
    (hoff : 0 ≤ offset) (hoffmax : offset ≤ MaxInt64)
    (hlen : length = -1 ∨ 0 ≤ length) (hsum : offset + length ≤ MaxInt64) :
    ∃ o' l' : Int,
      o' = min offset ((content.length : Int) - 4) ∧
      l' = (if length = -1 ∨ o' + length ≥ (content.length : Int) - 4
            then (content.length : Int) - 4 - o' else length) ∧
      seekRead fs fullPath offset length = .ok (⟨.file content t, o', l'⟩, l') ∧
      LimitedReader.readAll ⟨.file content t, o', l'⟩
        = .ok (((content.take (content.length - 4)).drop o'.toNat).take l'.toNat) ∧
      ∀ (env : Env) (w : World) (header : Header) (g p1 p2 md5 : String),
        w.fs = fs → header.Attributes ≠ none →
        FileIdPatternRegexp (header.attr "fileId") = some (g, p1, p2, md5) →
        Join [env.DataDir, p1, p2, md5] "/" = fullPath →
        StrToInt64 (header.attr "offset") = .ok offset →
        StrToInt64 (header.attr "length") = .ok length →
        downFileHandler env w header
          = ⟨some { Result := .SUCCESS }, some ⟨.file content t, o', l'⟩, l', none⟩ := by
  have hmax : MaxInt64 = 2 ^ 63 - 1 := rfl
  have hmin : MinInt64 = -(2 ^ 63) := rfl
  have hp : sub64 content.length 4 = (content.length : Int) - 4 := by
    unfold sub64; apply wrapInt64_of_range <;> omega
  have key : ∃ o' l' : Int,
      o' = min offset ((content.length : Int) - 4) ∧
      l' = (if length = -1 ∨ o' + length ≥ (content.length : Int) - 4
            then (content.length : Int) - 4 - o' else length) ∧
      seekRead fs fullPath offset length = .ok (⟨.file content t, o', l'⟩, l') ∧
      0 ≤ o' ∧ o' + l' ≤ (content.length : Int) - 4 := by
    refine ⟨min offset ((content.length : Int) - 4), _, rfl, rfl, ?_, ?_, ?_⟩
    · rw [seekRead_file fs fullPath content t offset length hfile hsize]
      simp only [hp]
      have ho : (if offset ≥ (content.length : Int) - 4 then (content.length : Int) - 4 else offset)
          = min offset ((content.length : Int) - 4) := by
        split <;> omega
      rw [ho]
      have hadd : add64 (min offset ((content.length : Int) - 4)) length
          = min offset ((content.length : Int) - 4) + length := by
        unfold add64; apply wrapInt64_of_range <;> omega
      have hsub : sub64 ((content.length : Int) - 4) (min offset ((content.length : Int) - 4))
          = (content.length : Int) - 4 - min offset ((content.length : Int) - 4) := by
        unfold sub64; apply wrapInt64_of_range <;> omega
      rw [hadd, hsub]
      have hseek : Seek content.length 0 (min offset ((content.length : Int) - 4)) 0
          = .ok (min offset ((content.length : Int) - 4)) := by
        unfold Seek
        have h1 : ¬ (min offset ((content.length : Int) - 4) < 0) := by omega
        have h2 : ¬ (MaxInt64 < min offset ((content.length : Int) - 4)) := by omega
        simp only [Int.zero_add, h1, h2, if_false]
      rw [hseek]
    · omega
    · split <;> omega
  obtain ⟨o', l', ho', hl', hseek, ho0, hol⟩ := key
  refine ⟨o', l', ho', hl', hseek, ?_, ?_⟩
  · unfold LimitedReader.readAll
    by_cases hl0 : l' ≤ 0
    · have : l'.toNat = 0 := by omega
      simp [hl0, this]
    · simp only [hl0, if_false]
      rw [readAt_payload]
      omega
  · intro env w header g p1 p2 md5 hw hattr hfid hpath hso hsl
    unfold downFileHandler
    simp only [hfid, hattr, if_false, hso, hsl, hpath, hw, hseek]

/-! ## File identifiers -/

theorem toUpper_lower_hex (c : Char) (h : isLowerHex c = true) : isUpperHex c.toUpper = true := by
  have hc : c = Char.ofNat c.toNat := (Char.ofNat_toNat c).symm
  unfold isLowerHex isDecimal at h
  simp only [Bool.or_eq_true, Bool.and_eq_true, decide_eq_true_eq] at h
  generalize c.toNat = n at hc h
  subst hc
  rcases h with h | h
  · obtain ⟨h1, h2⟩ := h
    interval_cases n <;> decide
  · obtain ⟨h1, h2⟩ := h
    interval_cases n <;> decide

theorem lowerHex_ne_slash (c : Char) (h : isLowerHex c = true) : c ≠ '/' := by
  intro hc; subst hc; revert h; decide

theorem upperHex_ne_slash (c : Char) (h : isUpperHex c = true) : c ≠ '/' := by
  intro hc; subst hc; revert h; decide

theorem splitSlash_single (a : List Char) (h : '/' ∉ a) : splitSlash a = [a] := by
  induction a with
  | nil => rfl
  | cons c cs ih =>
    have hc : c ≠ '/' := fun e => h (by simp [e])
    have hcs : '/' ∉ cs := fun e => h (by simp [e])
    simp [splitSlash, hc, ih hcs]

theorem splitSlash_append (a rest : List Char) (h : '/' ∉ a) :
    splitSlash (a ++ '/' :: rest) = a :: splitSlash rest := by
  induction a with
  | nil => simp [splitSlash]
  | cons c cs ih =>
    have hc : c ≠ '/' := fun e => h (by simp [e])
    have hcs : '/' ∉ cs := fun e => h (by simp [e])
    simp [splitSlash, hc, ih hcs]

theorem not_mem_slash_of_all {p : Char → Bool} (hp : ∀ c, p c = true → c ≠ '/') (l : List Char)
    (h : l.all p = true) : '/' ∉ l := by
  intro hm
  rw [List.all_eq_true] at h
  exact hp _ (h _ hm) rfl

/-- A text of the form `g/d1/d2/m` whose parts meet the grammar matches, and
its capture groups are the parts. -/
theorem FileIdPatternRegexp_parts (g d1 d2 m : String)
    (hg : g ≠ "") (hgs : '/' ∉ g.data)
    (h1 : d1.length = 2) (h1h : d1.data.all isUpperHex = true)
    (h2 : d2.length = 2) (h2h : d2.data.all isUpperHex = true)
    (hm : m.length = 32) (hmh : m.data.all isLowerHex = true) :
    FileIdPatternRegexp (g ++ "/" ++ d1 ++ "/" ++ d2 ++ "/" ++ m) = some (g, d1, d2, m) := by
  have e1 := not_mem_slash_of_all upperHex_ne_slash _ h1h
  have e2 := not_mem_slash_of_all upperHex_ne_slash _ h2h
  have e3 := not_mem_slash_of_all lowerHex_ne_slash _ hmh
  have hdata : (g ++ "/" ++ d1 ++ "/" ++ d2 ++ "/" ++ m).data
      = g.data ++ '/' :: (d1.data ++ '/' :: (d2.data ++ '/' :: m.data)) := by
    simp [String.data_append]
  have hg' : g.data ≠ [] := by
    intro e; apply hg; exact String.ext e
  unfold FileIdPatternRegexp
  rw [hdata, splitSlash_append _ _ hgs, splitSlash_append _ _ e1, splitSlash_append _ _ e2,
    splitSlash_single _ e3]
  have l1 : d1.data.length = 2 := h1
  have l2 : d2.data.length = 2 := h2
  have l3 : m.data.length = 32 := hm
  simp [hg', l1, l2, l3, h1h, h2h, hmh]

/-! ## The upload loop and the file system -/

theorem uploadLoop_eq (env : Env) (w : World) (tmp : String) (bl : Int) :
    ∀ (reader : BodyReader) (rr : Int) (h o : List Byte),
      uploadLoop env w tmp bl reader rr h o =
        match reader.failure with
        | some e => (⟨none, none, 0, some e⟩, w)
        | none => uploadFinish env w tmp bl (rr + reader.consumed.length)
            (h ++ reader.consumed) (o ++ reader.consumed) := by
  intro reader
  induction reader with
  | nil => intro rr h o; simp [uploadLoop, BodyReader.failure, BodyReader.consumed]
  | cons r rest ih =>
    intro rr h o
    by_cases he : r.err.isSome ∧ r.err ≠ some .EOF
    · obtain ⟨e, hre⟩ := Option.isSome_iff_exists.mp he.1
      rw [hre] at he
      have he2 : some e ≠ some Err.EOF := he.2
      simp only [uploadLoop, BodyReader.failure, hre, Option.isSome_some, true_and, he2,
        ne_eq, not_false_eq_true, if_true]
    · by_cases hd : r.data.length > 0
      · simp only [uploadLoop, BodyReader.failure, BodyReader.consumed, he, if_false, hd, if_true]
        rw [ih]
        simp only [List.length_append, Nat.cast_add, List.append_assoc, Int.add_assoc]
      · have h0 : r.data.length = 0 := by omega
        simp only [uploadLoop, BodyReader.failure, BodyReader.consumed, he, if_false, h0,
          gt_iff_lt, lt_self_iff_false, List.length_nil, List.append_nil, Nat.cast_zero,
          Int.add_zero]

theorem consumed_initial : ∀ reader : BodyReader, ∃ rest, reader.bytes = reader.consumed ++ rest := by
  intro reader
  induction reader with
  | nil => exact ⟨[], rfl⟩
  | cons r rs ih =>
    obtain ⟨rest, hrest⟩ := ih
    unfold BodyReader.bytes at hrest ⊢
    simp only [BodyReader.consumed, List.map_cons, List.flatten_cons]
    split
    · exact ⟨_, rfl⟩
    · split
      · exact ⟨rest, by rw [hrest, List.append_assoc]⟩
      · exact ⟨_, rfl⟩

theorem consumed_eq_bytes (reader : BodyReader) (h : reader.consumed.length = reader.bytes.length) :
    reader.consumed = reader.bytes := by
  obtain ⟨rest, hrest⟩ := consumed_initial reader
  rw [hrest, List.length_append] at h
  have : rest = [] := List.length_eq_zero.mp (by omega)
  rw [hrest, this, List.append_nil]

theorem increaseRefCount_fails (fs : FS) (targetFile : String) (now : Int) :
    ∃ e, increaseRefCount fs targetFile now = .error e := by
  unfold increaseRefCount
  split
  · rename_i content t _
    simp only [Seek]
    have h1 : ¬ ((content.length : Int) + 4 < 0) := by omega
    simp only [h1, if_false]
    by_cases h2 : MaxInt64 < (content.length : Int) + 4
    · simp only [h2, if_true]
      exact ⟨_, rfl⟩
    · have hr : readAt content ((content.length : Int) + 4) 4 = [] := by
        unfold readAt
        have : ((content.length : Int) + 4).toNat = content.length + 4 := by omega
        rw [this, List.drop_eq_nil_of_le (by omega)]
        rfl
      simp [h2, ReadAtLeast, hr]
  · exact ⟨_, rfl⟩

theorem CreateDirs_error (now : Int) (l : List String) (e : Err) :
    l.foldl (fun acc d =>
      match acc with
      | .error e => .error e
      | .ok f =>
        match f d with
        | some (.file _ _) => .error (.os "mkdir" d)
        | some (.dir _ _) => .ok f
        | none => .ok (Function.update f d (some (.dir 0 now)))) (Except.error e : Except Err FS)
      = .error e := by
  induction l with
  | nil => rfl
  | cons d ds ih => simpa [List.foldl] using ih

theorem CreateDirs_fold_keeps (now : Int) (l : List String) :
    ∀ (fs fs' : FS),
      l.foldl (fun acc d =>
        match acc with
        | .error e => .error e
        | .ok f =>
          match f d with
          | some (.file _ _) => .error (.os "mkdir" d)
          | some (.dir _ _) => .ok f
          | none => .ok (Function.update f d (some (.dir 0 now)))) (Except.ok fs : Except Err FS)
        = .ok fs' → ∀ q, fs q ≠ none → fs' q = fs q := by
  induction l with
  | nil =>
    intro fs fs' h q _
    simp only [List.foldl] at h
    cases h; rfl
  | cons d ds ih =>
    intro fs fs' h q hq
    simp only [List.foldl] at h
    cases hd : fs d with
    | none =>
      simp only [hd] at h
      have := ih _ _ h q (by
        by_cases hqd : q = d
        · subst hqd; simp
        · simpa [Function.update, hqd] using hq)
      rw [this]
      by_cases hqd : q = d
      · subst hqd; exact absurd hd hq
      · simp [Function.update, hqd]
    | some n =>
      cases n with
      | file c t =>
        simp only [hd] at h
        rw [CreateDirs_error] at h
        cases h
      | dir sz t =>
        simp only [hd] at h
        exact ih _ _ h q hq

theorem CreateDirs_keeps (fs fs' : FS) (path : String) (now : Int)
    (h : fs.CreateDirs path now = .ok fs') (q : String) (hq : fs q ≠ none) : fs' q = fs q :=
  CreateDirs_fold_keeps now _ fs fs' h q hq

theorem targetDir_eq (crc : String) :
    ToUpper (Join [slice crc (crc.length - 4) (crc.length - 2), "/",
      slice crc (crc.length - 2) crc.length] "") = shard1 crc ++ "/" ++ shard2 crc := by
  apply String.ext
  simp [ToUpper, Join, shard1, shard2, String.data_append, List.map_append]

theorem Join_path (a b c d : String) :
    Join [a, b, c, d] "/" = a ++ "/" ++ (b ++ "/" ++ c) ++ "/" ++ d := by
  apply String.ext
  simp [Join, String.data_append]

theorem MoveFile_ok (fs fs' : FS) (src dst : String) (h : fs.MoveFile src dst = .ok fs') :
    ∃ content t, fs src = some (.file content t) ∧
      fs' = Function.update (Function.update fs src none) dst (some (.file content t)) := by
  unfold FS.MoveFile at h
  split at h
  · rename_i content t hsrc
    split at h
    · cases h
    · split at h
      · cases h
        exact ⟨content, t, hsrc, rfl⟩
      · cases h
  · cases h

theorem uploadFinish_success (env : Env) (w : World) (tmp : String) (bl rr : Int)
    (hashed out : List Byte) (h : Header)
    (hs : (uploadFinish env w tmp bl rr hashed out).1.header = some h) :
    bl = rr ∧ 4 ≤ (env.crc32String hashed).length ∧
    (uploadFinish env w tmp bl rr hashed out).1
      = ⟨some { Result := .SUCCESS, Attributes := some [
          ("fid", env.Group ++ "/" ++ (shard1 (env.crc32String hashed) ++ "/"
            ++ shard2 (env.crc32String hashed)) ++ "/" ++ env.md5String hashed),
          ("instanceId", env.InstanceId), ("group", env.Group)] }, none, 0, none⟩ ∧
    (uploadFinish env w tmp bl rr hashed out).2.binlog
      = w.binlog ++ [CreateLocalBinlog (env.Group ++ "/" ++ (shard1 (env.crc32String hashed) ++ "/"
            ++ shard2 (env.crc32String hashed)) ++ "/" ++ env.md5String hashed) bl env.InstanceId] ∧
    (uploadFinish env w tmp bl rr hashed out).2.fs
        (env.DataDir ++ "/" ++ (shard1 (env.crc32String hashed) ++ "/"
            ++ shard2 (env.crc32String hashed)) ++ "/" ++ env.md5String hashed)
      = some (.file (out ++ tailRefCount) w.now) ∧
    (uploadFinish env w tmp bl rr hashed out).2.fs tmp = none := by
  simp only [uploadFinish, targetDir_eq] at hs ⊢
  generalize env.Group ++ "/" ++ (shard1 (env.crc32String hashed) ++ "/"
    ++ shard2 (env.crc32String hashed)) ++ "/" ++ env.md5String hashed = fid at hs ⊢
  generalize env.DataDir ++ "/" ++ (shard1 (env.crc32String hashed) ++ "/"
    ++ shard2 (env.crc32String hashed)) ++ "/" ++ env.md5String hashed = target at hs ⊢
  generalize env.DataDir ++ "/" ++ (shard1 (env.crc32String hashed) ++ "/"
    ++ shard2 (env.crc32String hashed)) = loc at hs ⊢
  by_cases hbl : bl = rr
  swap
  · simp [hbl] at hs
  by_cases hcrc : (env.crc32String hashed).length < 4
  · simp [hbl, hcrc] at hs
  simp only [hbl, hcrc, ne_eq, not_true_eq_false, if_false] at hs ⊢
  refine ⟨trivial, by omega, ?_⟩
  split at hs
  · simp at hs
  · rename_i fs2 hcd
    split at hs
    · simp at hs
    · rename_i fs3 hmv
      split at hs
      · simp at hs
      · rename_i w4 hbw
        -- the binlog write succeeded
        have hw4 : w4 = ⟨fs3, w.binlog ++ [CreateLocalBinlog fid rr env.InstanceId],
            w.binlogFault, w.now⟩ := by
          unfold World.binlogWrite at hbw
          split at hbw
          · cases hbw
          · cases hbw; rfl
        -- the temporary file holds the body and the footer
        have htmp : fs2 tmp = some (.file (out ++ tailRefCount) w.now) := by
          split at hcd
          · rw [CreateDirs_keeps _ _ _ _ hcd tmp (by simp)]
            simp
          · cases hcd; simp
        -- the target was absent and the temporary file was moved there
        by_cases hex : fs2.Exists target = true
        · simp only [hex, Bool.not_true, Bool.false_eq_true, if_false] at hmv
          obtain ⟨e, he⟩ := increaseRefCount_fails fs2 target w.now
          rw [he] at hmv
          cases hmv
        · have hnone : fs2 target = none := by
            simpa [FS.Exists] using hex
          simp only [hex, Bool.not_false, if_true] at hmv
          obtain ⟨c, t, hsrc, hfs3⟩ := MoveFile_ok _ _ _ _ hmv
          rw [htmp] at hsrc
          cases hsrc
          have hne : tmp ≠ target := by
            intro e
            rw [← e, htmp] at hnone
            cases hnone
          subst hw4
          subst hfs3
          refine ⟨rfl, rfl, ?_, ?_⟩
          · simp
          · simp [Function.update, hne]

theorem toUpper_hex (c : Char) (h : isHexDigit c = true) : isUpperHex c.toUpper = true := by
  unfold isHexDigit at h
  rw [Bool.or_eq_true] at h
  rcases h with h | h
  · exact toUpper_lower_hex c h
  · have hc : c = Char.ofNat c.toNat := (Char.ofNat_toNat c).symm
    unfold isUpperHex isDecimal at h
    simp only [Bool.or_eq_true, Bool.and_eq_true, decide_eq_true_eq] at h
    generalize c.toNat = n at hc h
    subst hc
    rcases h with h | h
    · obtain ⟨h1, h2⟩ := h
      interval_cases n <;> decide
    · obtain ⟨h1, h2⟩ := h
      interval_cases n <;> decide

theorem ToUpper_slice_length (crc : String) (i j : Nat) (h : j ≤ crc.length) :
    (ToUpper (slice crc i j)).length = j - i := by
  have hl : crc.data.length = crc.length := rfl
  show (List.map Char.toUpper ((crc.data.drop i).take (j - i))).length = j - i
  simp only [List.length_map, List.length_take, List.length_drop]
  omega

theorem ToUpper_slice_hex (crc : String) (i j : Nat) (h : crc.data.all isHexDigit = true) :
    (ToUpper (slice crc i j)).data.all isUpperHex = true := by
  show (List.map Char.toUpper ((crc.data.drop i).take (j - i))).all isUpperHex = true
  rw [List.all_eq_true] at h ⊢
  intro c hc
  rw [List.mem_map] at hc
  obtain ⟨a, ha, rfl⟩ := hc
  exact toUpper_hex a (h a (List.mem_of_mem_drop (List.mem_of_mem_take ha)))

theorem fid_assoc (g a b m : String) :
    g ++ "/" ++ (a ++ "/" ++ b) ++ "/" ++ m = g ++ "/" ++ a ++ "/" ++ b ++ "/" ++ m := by
  simp [String.append_assoc]

theorem Delete_absent (fs : FS) (path : String) (h : fs path = none) : fs.Delete path = fs := by
  unfold FS.Delete
  rw [h]

/-- What a call of `uploadFileHandler` that returns a header has done. -/
theorem upload_success (env : Env) (w : World) (uuid : String) (bodyReader : BodyReader)
    (bodyLength : Int) (h : Header)
    (hs : (uploadFileHandler env w uuid bodyReader bodyLength).1.header = some h) :
    bodyLength = bodyReader.consumed.length ∧
    4 ≤ (env.crc32String bodyReader.consumed).length ∧
    (uploadFileHandler env w uuid bodyReader bodyLength).1
      = ⟨some { Result := .SUCCESS, Attributes := some [
          ("fid", env.Group ++ "/" ++ (shard1 (env.crc32String bodyReader.consumed) ++ "/"
            ++ shard2 (env.crc32String bodyReader.consumed)) ++ "/"
            ++ env.md5String bodyReader.consumed),
          ("instanceId", env.InstanceId), ("group", env.Group)] }, none, 0, none⟩ ∧
    (uploadFileHandler env w uuid bodyReader bodyLength).2.binlog
      = w.binlog ++ [CreateLocalBinlog (env.Group ++ "/"
          ++ (shard1 (env.crc32String bodyReader.consumed) ++ "/"
            ++ shard2 (env.crc32String bodyReader.consumed)) ++ "/"
          ++ env.md5String bodyReader.consumed) bodyLength env.InstanceId] ∧
    (uploadFileHandler env w uuid bodyReader bodyLength).2.fs
        (env.DataDir ++ "/" ++ (shard1 (env.crc32String bodyReader.consumed) ++ "/"
            ++ shard2 (env.crc32String bodyReader.consumed)) ++ "/"
            ++ env.md5String bodyReader.consumed)
      = some (.file (bodyReader.consumed ++ tailRefCount) w.now) := by
  unfold uploadFileHandler at hs ⊢
  simp only [] at hs ⊢
  split at hs
  · simp at hs
  · rename_i fs0 hcf
    simp only [uploadLoop_eq] at hs ⊢
    cases hf : bodyReader.failure with
    | some e => simp [hf] at hs
    | none =>
      simp only [hf, List.nil_append, Int.zero_add] at hs ⊢
      obtain ⟨h1, h2, h3, h4, h5, h6⟩ := uploadFinish_success env _ _ _ _ _ _ h hs
      refine ⟨h1, h2, h3, h4, ?_⟩
      rw [Delete_absent _ _ h6]
      exact h5

/-! ## Fid derivation and round trip -/

theorem attr_fid (a b c : String) :
    Header.attr { Result := .SUCCESS, Attributes := some [("fid", a), ("instanceId", b),
      ("group", c)] } "fid" = a := by
  simp [Header.attr, List.lookup]

/-- The format part of the fid derivation: with a CRC-32 text of 8 hex digits,
an MD5 text of 32 lower-case hex digits and a group without a slash, the fid
matches the grammar and its capture groups are the group, the two shards and
the MD5 text. -/
theorem fid_matches (group crc md5 : String)
    (hg : group ≠ "") (hgs : '/' ∉ group.data)
    (hcrc : crc.length = 8) (hcrch : crc.data.all isHexDigit = true)
    (hmd5 : md5.length = 32) (hmd5h : md5.data.all isLowerHex = true) :
    FileIdPatternRegexp (group ++ "/" ++ shard1 crc ++ "/" ++ shard2 crc ++ "/" ++ md5)
      = some (group, shard1 crc, shard2 crc, md5) := by
  apply FileIdPatternRegexp_parts _ _ _ _ hg hgs _ _ _ _ hmd5 hmd5h
  · rw [shard1, ToUpper_slice_length _ _ _ (by omega), hcrc]
  · exact ToUpper_slice_hex _ _ _ hcrch
  · rw [shard2, ToUpper_slice_length _ _ _ (by omega), hcrc]
  · exact ToUpper_slice_hex _ _ _ hcrch

/-- C7. Fid derivation: the fid a successful upload returns is
`group/D1/D2/md5`, where `D1` and `D2` are the upper-cased characters
`crc[len-4 : len-2]` and `crc[len-2 :]` of the CRC-32 text of the uploaded
bytes and `md5` is their MD5 text. When the CRC-32 text is 8 hex digits, the
MD5 text 32 lower-case hex digits and the group is non-empty without a slash,
the fid matches the fid grammar with capture groups `group, D1, D2, md5`, and
the object (body followed by the footer) is stored at the path
`<data-dir>/D1/D2/md5` that download and inspect join from those groups. -/
theorem upload_fid_derivation (env : Env) (w : World) (uuid : String) (bodyReader : BodyReader)
    (bodyLength : Int) (h : Header)
    (hs : (uploadFileHandler env w uuid bodyReader bodyLength).1.header = some h) :
    h.Result = .SUCCESS ∧
    h.attr "fid" = env.Group ++ "/" ++ shard1 (env.crc32String bodyReader.consumed) ++ "/"
      ++ shard2 (env.crc32String bodyReader.consumed) ++ "/"
      ++ env.md5String bodyReader.consumed ∧
    ((env.crc32String bodyReader.consumed).length = 8 →
      (env.crc32String bodyReader.consumed).data.all isHexDigit = true →
      (env.md5String bodyReader.consumed).length = 32 →
      (env.md5String bodyReader.consumed).data.all isLowerHex = true →
      env.Group ≠ "" → '/' ∉ env.Group.data →
        FileIdPatternRegexp (h.attr "fid")
          = some (env.Group, shard1 (env.crc32String bodyReader.consumed),
              shard2 (env.crc32String bodyReader.consumed), env.md5String bodyReader.consumed) ∧
        (uploadFileHandler env w uuid bodyReader bodyLength).2.fs
            (Join [env.DataDir, shard1 (env.crc32String bodyReader.consumed),
              shard2 (env.crc32String bodyReader.consumed),
              env.md5String bodyReader.consumed] "/")
          = some (.file (bodyReader.consumed ++ tailRefCount) w.now)) := by
  obtain ⟨_, _, h3, _, h5⟩ := upload_success env w uuid bodyReader bodyLength h hs
  rw [h3] at hs
  have hh : h = { Result := .SUCCESS, Attributes := some [
      ("fid", env.Group ++ "/" ++ (shard1 (env.crc32String bodyReader.consumed) ++ "/"
        ++ shard2 (env.crc32String bodyReader.consumed)) ++ "/"
        ++ env.md5String bodyReader.consumed),
      ("instanceId", env.InstanceId), ("group", env.Group)] } := by
    simpa using hs.symm
  have hfid : h.attr "fid" = env.Group ++ "/" ++ shard1 (env.crc32String bodyReader.consumed)
      ++ "/" ++ shard2 (env.crc32String bodyReader.consumed) ++ "/"
      ++ env.md5String bodyReader.consumed := by
    rw [hh, attr_fid, fid_assoc]
  refine ⟨by rw [hh], hfid, ?_⟩
  intro c1 c2 m1 m2 g1 g2
  refine ⟨?_, ?_⟩
  · rw [hfid]
    exact fid_matches _ _ _ g1 g2 c1 c2 m1 m2
  · rw [Join_path]
    exact h5

/-- C1. Round trip: when an upload of a body stream that yields exactly `b`,
declared with `bodyLength = len b`, returns a header (every header an upload
returns is a SUCCESS header) with attribute `fid = f`, a download of `fileId = f`, `offset = "0"`, `length = "-1"` on the
resulting store returns SUCCESS, body length `len b` and a reader that yields
exactly `b`. The group of the node is non-empty without a slash, the CRC-32 text of
`b` is 8 hex digits, its MD5 text 32 lower-case hex digits, and the stored file
fits `int64`. -/
theorem upload_download_round_trip (env : Env) (w : World) (uuid : String)
    (bodyReader : BodyReader) (bodyLength : Int) (b : List Byte) (h header : Header) (f : String)
    (hb : bodyReader.bytes = b) (hlen : bodyLength = (b.length : Int))
    (hs : (uploadFileHandler env w uuid bodyReader bodyLength).1.header = some h)
    (hfid : h.attr "fid" = f)
    (hdfid : header.attr "fileId" = f) (hdoff : header.attr "offset" = "0")
    (hdlen : header.attr "length" = "-1")
    (hg : env.Group ≠ "") (hgs : '/' ∉ env.Group.data)
    (hcrc : (env.crc32String b).length = 8) (hcrch : (env.crc32String b).data.all isHexDigit = true)
    (hmd5 : (env.md5String b).length = 32) (hmd5h : (env.md5String b).data.all isLowerHex = true)
    (hfit : (b.length : Int) + 4 ≤ MaxInt64) :
    ∃ reader : LimitedReader,
      downFileHandler env (uploadFileHandler env w uuid bodyReader bodyLength).2 header
        = ⟨some { Result := .SUCCESS }, some reader, (b.length : Int), none⟩ ∧
      reader.readAll = .ok b := by
  obtain ⟨h1, _, h3, _, h5⟩ := upload_success env w uuid bodyReader bodyLength h hs
  have hcons : bodyReader.consumed = b := by
    rw [← hb]
    apply consumed_eq_bytes
    rw [hb]
    have : ((bodyReader.consumed.length : Nat) : Int) = (b.length : Int) := by rw [← h1, hlen]
    exact_mod_cast this
  rw [hcons] at h3 h5
  rw [h3] at hs
  have hh : h = { Result := .SUCCESS, Attributes := some [
      ("fid", env.Group ++ "/" ++ (shard1 (env.crc32String b) ++ "/"
        ++ shard2 (env.crc32String b)) ++ "/" ++ env.md5String b),
      ("instanceId", env.InstanceId), ("group", env.Group)] } := by
    simpa using hs.symm
  have hf : f = env.Group ++ "/" ++ shard1 (env.crc32String b) ++ "/"
      ++ shard2 (env.crc32String b) ++ "/" ++ env.md5String b := by
    rw [← hfid, hh, attr_fid, fid_assoc]
  have hattr : header.Attributes ≠ none := by
    intro e
    have : header.attr "offset" = "" := by simp [Header.attr, e]
    rw [hdoff] at this
    exact absurd this (by decide)
  have hlen4 : (b ++ tailRefCount).length = b.length + 4 := by simp [tailRefCount]
  obtain ⟨o', l', ho', hl', _, hread, hdown⟩ := seekRead_clamp
    (uploadFileHandler env w uuid bodyReader bodyLength).2.fs
    (env.DataDir ++ "/" ++ (shard1 (env.crc32String b) ++ "/" ++ shard2 (env.crc32String b))
      ++ "/" ++ env.md5String b)
    (b ++ tailRefCount) w.now 0 (-1) h5 (by omega) (by rw [hlen4]; push_cast; omega)
    (by omega) (by unfold MaxInt64; omega) (Or.inl rfl) (by unfold MaxInt64; omega)
  have ho0 : o' = 0 := by rw [ho', hlen4]; push_cast; omega
  have hlb : l' = (b.length : Int) := by
    rw [hl', ho0, hlen4]; simp
  subst ho0
  subst hlb
  refine ⟨⟨.file (b ++ tailRefCount) w.now, 0, (b.length : Int)⟩, ?_, ?_⟩
  · apply hdown env _ header env.Group (shard1 (env.crc32String b)) (shard2 (env.crc32String b))
      (env.md5String b) rfl hattr
    · rw [hdfid, hf]
      exact fid_matches _ _ _ hg hgs hcrc hcrch hmd5 hmd5h
    · exact Join_path _ _ _ _
    · rw [hdoff]; decide
    · rw [hdlen]; decide
  · rw [hread, hlen4]
    simp

/-! ## Binlog -/

/-- A call of `uploadFinish` either returns a header, or returns an error and
no header and leaves the binlog as it was. -/
theorem uploadFinish_shape (env : Env) (w : World) (tmp : String) (bl rr : Int)
    (hashed out : List Byte) :
    (∃ h, (uploadFinish env w tmp bl rr hashed out).1.header = some h) ∨
    (∃ e, (uploadFinish env w tmp bl rr hashed out).1 = ⟨none, none, 0, some e⟩ ∧
      (uploadFinish env w tmp bl rr hashed out).2.binlog = w.binlog ∧
      (bl ≠ rr → e = .new "mismatch body length")) := by
  simp only [uploadFinish]
  by_cases hbl : bl = rr
  swap
  · right
    exact ⟨_, by simp [hbl], by simp [hbl], fun _ => rfl⟩
  by_cases hcrc : (env.crc32String hashed).length < 4
  · right
    exact ⟨.panic "slice bounds out of range", by simp [hbl, hcrc], by simp [hbl, hcrc],
      fun hne => absurd hbl hne⟩
  simp only [hbl, hcrc, ne_eq, not_true_eq_false, if_false]
  split
  · right
    exact ⟨_, rfl, rfl, fun hne => hne.elim⟩
  · split
    · right
      exact ⟨_, rfl, rfl, fun hne => hne.elim⟩
    · split
      · right
        exact ⟨_, rfl, rfl, fun hne => hne.elim⟩
      · left
        exact ⟨_, rfl⟩

/-- A call of `uploadFileHandler` either returns a header, or returns an error
and no header and leaves the binlog as it was. -/
theorem upload_shape (env : Env) (w : World) (uuid : String) (bodyReader : BodyReader)
    (bodyLength : Int) :
    (∃ h, (uploadFileHandler env w uuid bodyReader bodyLength).1.header = some h) ∨
    (∃ e, (uploadFileHandler env w uuid bodyReader bodyLength).1 = ⟨none, none, 0, some e⟩ ∧
      (uploadFileHandler env w uuid bodyReader bodyLength).2.binlog = w.binlog ∧
      (bodyReader.failure = none →
        (∃ fs, w.fs.CreateFile (env.TmpDir ++ "/" ++ uuid) w.now = .ok fs) →
        bodyLength ≠ bodyReader.consumed.length → e = .new "mismatch body length")) := by
  unfold uploadFileHandler
  simp only []
  split
  · rename_i e hcf
    right
    refine ⟨e, rfl, rfl, ?_⟩
    intro _ hex
    obtain ⟨fs, hfs⟩ := hex
    rw [hfs] at hcf
    cases hcf
  · rename_i fs0 hcf
    simp only [uploadLoop_eq]
    cases hf : bodyReader.failure with
    | some e =>
      right
      exact ⟨e, rfl, rfl, fun h => by cases h⟩
    | none =>
      simp only [List.nil_append, Int.zero_add]
      rcases uploadFinish_shape env { w with fs := fs0 } (env.TmpDir ++ "/" ++ uuid) bodyLength
        (bodyReader.consumed.length) bodyReader.consumed bodyReader.consumed with hh | he
      · left; exact hh
      · right
        obtain ⟨e, h1, h2, h3⟩ := he
        exact ⟨e, h1, h2, fun _ _ hne => h3 hne⟩

/-- C10. Binlog record per successful ingest: a call of `uploadFileHandler`
that returns a header returns a SUCCESS header without an error, has appended
exactly one binlog record, made from the fid in the `fid` attribute of the reply,
the declared `bodyLength` (which is the number of bytes read from the body)
and the configured instance id; a call that returns an error other than that
of the binlog writer leaves the binlog as it was. -/
theorem upload_binlog_record (env : Env) (w : World) (uuid : String) (bodyReader : BodyReader)
    (bodyLength : Int) :
    (∀ h, (uploadFileHandler env w uuid bodyReader bodyLength).1.header = some h →
      h.Result = .SUCCESS ∧
      (uploadFileHandler env w uuid bodyReader bodyLength).1.err = none ∧
      bodyLength = bodyReader.consumed.length ∧
      (uploadFileHandler env w uuid bodyReader bodyLength).2.binlog
        = w.binlog ++ [CreateLocalBinlog (h.attr "fid") bodyLength env.InstanceId]) ∧
    (∀ e, (uploadFileHandler env w uuid bodyReader bodyLength).1.err = some e →
      (∀ m, e ≠ .new ("error writing binlog: " ++ m)) →
      (uploadFileHandler env w uuid bodyReader bodyLength).2.binlog = w.binlog) := by
  constructor
  · intro h hs
    obtain ⟨h1, _, h3, h4, _⟩ := upload_success env w uuid bodyReader bodyLength h hs
    have hs' := hs
    rw [h3] at hs'
    have hh : h = { Result := .SUCCESS, Attributes := some [
        ("fid", env.Group ++ "/" ++ (shard1 (env.crc32String bodyReader.consumed) ++ "/"
          ++ shard2 (env.crc32String bodyReader.consumed)) ++ "/"
          ++ env.md5String bodyReader.consumed),
        ("instanceId", env.InstanceId), ("group", env.Group)] } := by
      simpa using hs'.symm
    refine ⟨by rw [hh], by rw [h3], h1, ?_⟩
    rw [h4, hh, attr_fid]
  · intro e he _
    rcases upload_shape env w uuid bodyReader bodyLength with hh | hh
    · obtain ⟨h, hs⟩ := hh
      obtain ⟨_, _, h3, _, _⟩ := upload_success env w uuid bodyReader bodyLength h hs
      rw [h3] at he
      cases he
    · obtain ⟨_, _, h2, _⟩ := hh
      exact h2

/-! ## Connection handler -/

theorem sendReply_no_invoke (f : Frame) (r : Reply) (op : Int) (a : Bool) :
    Event.invoke op a ∉ (sendReply f r).2 := by
  unfold sendReply
  split
  · simp
  · split
    · simp [pipSend]
    · simp

/-- Every file handler the callback starts, it starts while `authorized` holds. -/
theorem frameCallback_invoke (env : Env) (s : ConnState) (f : Frame) (op : Int) (a : Bool)
    (h : Event.invoke op a ∈ (frameCallback env s f).2.2) : a = true := by
  unfold frameCallback at h
  split at h
  · simp at h
  · rename_i header _
    split at h
    · split at h
      · simp at h
      · split at h <;> simp at h
    · by_cases hauth : s.authorized = true
      · simp only [hauth, Bool.not_true, Bool.false_eq_true, if_false] at h
        split at h
        · simp only [List.mem_cons, Event.invoke.injEq] at h
          rcases h with h | h
          · exact h.2
          · exact absurd h (sendReply_no_invoke _ _ _ _)
        · split at h
          · simp only [List.mem_cons, Event.invoke.injEq] at h
            rcases h with h | h
            · exact h.2
            · exact absurd h (sendReply_no_invoke _ _ _ _)
          · split at h
            · simp only [List.mem_cons, Event.invoke.injEq] at h
              rcases h with h | h
              · exact h.2
              · exact absurd h (sendReply_no_invoke _ _ _ _)
            · simp at h
      · simp [hauth] at h

theorem connLoop_invoke (env : Env) (input : List Received) :
    ∀ (s : ConnState) (op : Int) (a : Bool),
      Event.invoke op a ∈ (connLoop env s input).2 → a = true := by
  induction input with
  | nil => intro s op a h; simp [connLoop] at h
  | cons r rest ih =>
    intro s op a h
    cases r with
    | decodeError e => simp [connLoop] at h
    | frame f =>
      simp only [connLoop] at h
      split at h
      · rename_i e s' evs hcb
        simp only [List.mem_append, List.mem_singleton] at h
        rcases h with h | h
        · apply frameCallback_invoke env s f op a
          rw [hcb]; exact h
        · cases h
      · rename_i s' evs hcb
        simp only [List.mem_append] at h
        rcases h with h | h
        · apply frameCallback_invoke env s f op a
          rw [hcb]; exact h
        · exact ih s' op a h

/-- The flag is set only by a CONNECT frame whose authentication reply is SUCCESS. -/
theorem frameCallback_authorized (env : Env) (s : ConnState) (f : Frame)
    (h : (frameCallback env s f).2.1.authorized = true) :
    s.authorized = true ∨ ∃ header reply, f.header = some header ∧
      header.Operation = OPERATION_CONNECT ∧
      env.authenticationHandler header env.Secret = .ok reply ∧ reply.Result = .SUCCESS := by
  unfold frameCallback at h
  split at h
  · exact Or.inl h
  · rename_i header hh
    split at h
    · rename_i hop
      split at h
      · exact Or.inl h
      · rename_i reply hauth
        split at h
        · exact Or.inl h
        · rename_i hres
          right
          exact ⟨header, reply, hh, hop, hauth, by simpa using hres⟩
    · split at h
      · exact Or.inl h
      · split at h
        · exact Or.inl h
        · split at h
          · exact Or.inl h
          · split at h
            · exact Or.inl h
            · exact Or.inl h

theorem frameCallback_unauthorized (env : Env) (s : ConnState) (f : Frame) (header : Header)
    (hs : s.authorized = false) (hh : f.header = some header)
    (hop : header.Operation ≠ OPERATION_CONNECT) :
    frameCallback env s f
      = (some (.new "unauthorized connection, force disconnection by server"), s,
          [.send { Result := .UNAUTHORIZED, Msg := "authentication failed" } none 0]) := by
  unfold frameCallback
  simp [hh, hop, hs]

/-- C6. Authentication gate: the loop of `storageClientConnHandler` starts with
`authorized = false`; a frame sets the flag only if it is a CONNECT frame whose
authentication reply has Result SUCCESS; a frame with any other operation that
arrives while the flag is false gets the single reply UNAUTHORIZED, after which
the loop ends and the connection is closed, whatever input follows; and in
every run each start of `uploadFileHandler`, `downFileHandler` or
`inspectFileHandler` happens while the flag is true. -/
theorem authentication_gate (env : Env) :
    (∀ w input, storageClientConnHandler env w input
      = connLoop env { authorized := false, world := w } input) ∧
    (∀ s f, (frameCallback env s f).2.1.authorized = true →
      s.authorized = true ∨ ∃ header reply, f.header = some header ∧
        header.Operation = OPERATION_CONNECT ∧
        env.authenticationHandler header env.Secret = .ok reply ∧ reply.Result = .SUCCESS) ∧
    (∀ s f header rest, s.authorized = false → f.header = some header →
      header.Operation ≠ OPERATION_CONNECT →
      connLoop env s (.frame f :: rest)
        = (s, [.send { Result := .UNAUTHORIZED, Msg := "authentication failed" } none 0,
            .close])) ∧
    (∀ w input op a, Event.invoke op a ∈ (storageClientConnHandler env w input).2 → a = true) := by
  refine ⟨fun _ _ => rfl, frameCallback_authorized env, ?_, ?_⟩
  · intro s f header rest hs hh hop
    simp only [connLoop, frameCallback_unauthorized env s f header hs hh hop]
    rfl
  · intro w input op a h
    exact connLoop_invoke env input _ op a h

/-- The gate on the concrete node: an upload frame that arrives before any CONNECT
gets the reply UNAUTHORIZED and the connection is closed. -/
theorem authentication_gate_witness :
    (storageClientConnHandler demoEnv freshWorld
        [.frame (helloUpload "u1" 5), .frame connectFrame]).2
      = [.send { Result := .UNAUTHORIZED, Msg := "authentication failed" } none 0, .close] :=
  congrArg Prod.snd ((authentication_gate demoEnv).2.2.1 ⟨false, freshWorld⟩ (helloUpload "u1" 5)
    (request OPERATION_UPLOAD []) [.frame connectFrame] rfl rfl (by decide))

/-- C9, as the code has it: an UPLOAD frame on an authorized connection whose
declared `bodyLength` differs from the number of bytes read from the body makes
`uploadFileHandler` return an error and no header (the error "mismatch body
length" when the temporary file was created and no read failed); the handler
sends no reply for the frame and its receive loop ends, closing the connection,
whatever input follows. -/
theorem upload_mismatch_closes (env : Env) (s : ConnState) (f : Frame) (header : Header)
    (rest : List Received)
    (hauth : s.authorized = true) (hh : f.header = some header)
    (hop : header.Operation = OPERATION_UPLOAD)
    (hmis : f.bodyLength ≠ f.bodyReader.consumed.length) :
    (∃ e, (uploadFileHandler env s.world f.uuid f.bodyReader f.bodyLength).1
        = ⟨none, none, 0, some e⟩ ∧
      (f.bodyReader.failure = none →
        (∃ fs, s.world.fs.CreateFile (env.TmpDir ++ "/" ++ f.uuid) s.world.now = .ok fs) →
        e = .new "mismatch body length")) ∧
    (connLoop env s (.frame f :: rest)).2 = [.invoke OPERATION_UPLOAD true, .close] := by
  rcases upload_shape env s.world f.uuid f.bodyReader f.bodyLength with hok | herr
  · obtain ⟨h, hs⟩ := hok
    obtain ⟨h1, _⟩ := upload_success env s.world f.uuid f.bodyReader f.bodyLength h hs
    exact absurd h1 hmis
  · obtain ⟨e, h1, _, h3⟩ := herr
    refine ⟨⟨e, h1, fun hf hc => h3 hf hc hmis⟩, ?_⟩
    have hne : ¬ (header.Operation = OPERATION_CONNECT) := by
      rw [hop]; decide
    simp only [connLoop, frameCallback, hh, hne, if_false, hauth, Bool.not_true,
      Bool.false_eq_true, hop, if_true, h1, sendReply]
    rfl

/-- The mismatch on the concrete node: `hello` declared as 10 bytes. -/
theorem upload_mismatch_closes_witness :
    (connLoop demoEnv ⟨true, freshWorld⟩
        [.frame (helloUpload "u1" 10), .frame (helloUpload "u2" 5)]).2
      = [.invoke OPERATION_UPLOAD true, .close] :=
  (upload_mismatch_closes demoEnv ⟨true, freshWorld⟩ (helloUpload "u1" 10)
    (request OPERATION_UPLOAD []) [.frame (helloUpload "u2" 5)] rfl rfl rfl (by decide)).2

/-- C9 fails as stated: after a successful CONNECT, an UPLOAD frame that
declares 10 bytes while the body ends after 5 gets no reply at all (so no
ERROR reply), the connection is closed, and the upload frame that follows is
never handled. -/
theorem upload_mismatch_no_error_reply :
    (storageClientConnHandler demoEnv freshWorld
        [.frame connectFrame, .frame (helloUpload "u1" 10), .frame (helloUpload "u2" 5)]).2
      = [.send { Result := .SUCCESS } none 0, .invoke OPERATION_UPLOAD true, .close] ∧
    ¬ ∃ h body length, Event.send h body length ∈ (storageClientConnHandler demoEnv freshWorld
        [.frame connectFrame, .frame (helloUpload "u1" 10), .frame (helloUpload "u2" 5)]).2 ∧
      h.Result = .ERROR := by
  have hev : (storageClientConnHandler demoEnv freshWorld
        [.frame connectFrame, .frame (helloUpload "u1" 10), .frame (helloUpload "u2" 5)]).2
      = [.send { Result := .SUCCESS } none 0, .invoke OPERATION_UPLOAD true, .close] := by
    decide
  refine ⟨hev, ?_⟩
  rw [hev]
  rintro ⟨h, body, length, hmem, hres⟩
  simp only [List.mem_cons, Event.send.injEq, List.mem_singleton] at hmem
  rcases hmem with ⟨rfl, _, _⟩ | hmem | hmem
  · cases hres
  · cases hmem
  · rcases hmem with hmem | hmem
    · cases hmem
    · cases hmem

/-! ## Scenarios on the concrete node -/

/-- The round trip on the concrete node: `hello` uploaded, then downloaded whole. -/
theorem upload_download_round_trip_witness :
    ∃ reader : LimitedReader,
      downFileHandler demoEnv helloWorld (helloDownload "0" "-1")
        = ⟨some { Result := .SUCCESS }, some reader, 5, none⟩ ∧
      reader.readAll = .ok helloBytes :=
  upload_download_round_trip demoEnv freshWorld "u1" [⟨helloBytes, none⟩] 5 helloBytes
    helloReply (helloDownload "0" "-1") helloFid (by decide) (by decide) (by decide) (by decide)
    (by decide) (by decide) (by decide) (by decide) (by decide) (by decide) (by decide)
    (by decide) (by decide) (by decide)

/-- The fid derivation on the concrete node: the fid of `hello` and where it is stored. -/
theorem upload_fid_derivation_witness :
    FileIdPatternRegexp helloFid = some ("G01", "A6", "86", "5d41402abc4b2a76b9719d911017c592") ∧
    helloWorld.fs helloPath = some helloFile :=
  (upload_fid_derivation demoEnv freshWorld "u1" [⟨helloBytes, none⟩] 5 helloReply
    (by decide)).2.2 (by decide) (by decide) (by decide) (by decide) (by decide) (by decide)

/-- The binlog of the concrete node after the first upload of `hello`. -/
theorem upload_binlog_record_witness :
    helloWorld.binlog = [CreateLocalBinlog helloFid 5 "node1"] :=
  ((upload_binlog_record demoEnv freshWorld "u1" [⟨helloBytes, none⟩] 5).1 helloReply
    (by decide)).2.2.2

/-- C8. Range clamping: for an object file of payload size `p = size - 4 ≥ 0`
(the size fitting `int64`), an offset `≥ 0` and a length that is `-1` or `≥ 0`,
with `offset + length` not overflowing, `seekRead` succeeds with
`o' = min offset p` and the returned length `l' = p - o'` when `length = -1`
or `o' + length ≥ p`, and `l' = length` otherwise; the reader yields exactly
the payload bytes `[o', o' + l')`; and `downFileHandler`, for a header that
names this file, offset and length, returns SUCCESS with that reader and body
length `l'`. -/
theorem seekRead_range_clamping (fs : FS) (fullPath : String) (content : List Byte)
    (t offset length : Int)
    (hfile : fs fullPath = some (.file content t))
    (hsize : 4 ≤ content.length) (hfit : (content.length : Int) ≤ MaxInt64)
    (hoff : 0 ≤ offset) (hoffmax : offset ≤ MaxInt64)
    (hlen : length = -1 ∨ 0 ≤ length) (hsum : offset + length ≤ MaxInt64) :
    ∃ o' l' : Int,
      o' = min offset ((content.length : Int) - 4) ∧
      l' = (if length = -1 ∨ o' + length ≥ (content.length : Int) - 4
            then (content.length : Int) - 4 - o' else length) ∧
      seekRead fs fullPath offset length = .ok (⟨.file content t, o', l'⟩, l') ∧
      LimitedReader.readAll ⟨.file content t, o', l'⟩
        = .ok (((content.take (content.length - 4)).drop o'.toNat).take l'.toNat) ∧
      ∀ (env : Env) (w : World) (header : Header) (g p1 p2 md5 : String),
        w.fs = fs → header.Attributes ≠ none →
        FileIdPatternRegexp (header.attr "fileId") = some (g, p1, p2, md5) →
        Join [env.DataDir, p1, p2, md5] "/" = fullPath →
        StrToInt64 (header.attr "offset") = .ok offset →
        StrToInt64 (header.attr "length") = .ok length →
        downFileHandler env w header
          = ⟨some { Result := .SUCCESS }, some ⟨.file content t, o', l'⟩, l', none⟩ :=
  seekRead_clamp fs fullPath content t offset length hfile hsize hfit hoff hoffmax hlen hsum

/-- Range clamping on the object file of `hello` with offset 1 and length 3. -/
theorem seekRead_range_clamping_witness :
    ∃ o' l' : Int,
      o' = min 1 (((helloBytes ++ tailRefCount).length : Int) - 4) ∧
      l' = (if (3 : Int) = -1 ∨ o' + 3 ≥ ((helloBytes ++ tailRefCount).length : Int) - 4
            then ((helloBytes ++ tailRefCount).length : Int) - 4 - o' else 3) ∧
      seekRead helloWorld.fs helloPath 1 3
        = .ok (⟨.file (helloBytes ++ tailRefCount) 1000, o', l'⟩, l') ∧
      LimitedReader.readAll ⟨.file (helloBytes ++ tailRefCount) 1000, o', l'⟩
        = .ok ((((helloBytes ++ tailRefCount).take
            ((helloBytes ++ tailRefCount).length - 4)).drop o'.toNat).take l'.toNat) ∧
      ∀ (env : Env) (w : World) (header : Header) (g p1 p2 md5 : String),
        w.fs = helloWorld.fs → header.Attributes ≠ none →
        FileIdPatternRegexp (header.attr "fileId") = some (g, p1, p2, md5) →
        Join [env.DataDir, p1, p2, md5] "/" = helloPath →
        StrToInt64 (header.attr "offset") = .ok 1 →
        StrToInt64 (header.attr "length") = .ok 3 →
        downFileHandler env w header
          = ⟨some { Result := .SUCCESS },
              some ⟨.file (helloBytes ++ tailRefCount) 1000, o', l'⟩, l', none⟩ :=
  seekRead_range_clamping helloWorld.fs helloPath (helloBytes ++ tailRefCount) 1000 1 3
    (by decide) (by decide) (by decide) (by decide) (by decide) (by decide) (by decide)

/-- The download scenarios on the object of `hello`: the whole payload, the
range of offset 1 and length 3, and a range that starts past the payload. -/
theorem download_scenarios :
    ((downFileHandler demoEnv helloWorld (helloDownload "0" "-1")).body.map
      LimitedReader.readAll) = some (.ok helloBytes) ∧
    ((downFileHandler demoEnv helloWorld (helloDownload "1" "3")).body.map
      LimitedReader.readAll) = some (.ok [101, 108, 108]) ∧
    (downFileHandler demoEnv helloWorld (helloDownload "1" "3")).length = 3 ∧
    ((downFileHandler demoEnv helloWorld (helloDownload "100" "10")).body.map
      LimitedReader.readAll) = some (.ok []) ∧
    (downFileHandler demoEnv helloWorld (helloDownload "100" "10")).length = 0 := by
  decide

/-- C2 fails on the code: a second upload of `hello` finds the object file,
takes the increment branch, seeks 4 bytes past the end of the file, reads no
byte there and returns `io.EOF` without a header. The object file keeps its
size 9 and its footer `00 00 00 00`, no binlog record is added, and the
connection handler sends no reply for the frame and closes the connection. -/
theorem duplicate_upload_fails :
    helloWorld.fs helloPath = some helloFile ∧
    (uploadFileHandler demoEnv helloWorld "u2" [⟨helloBytes, none⟩] 5).1
      = ⟨none, none, 0, some .EOF⟩ ∧
    (uploadFileHandler demoEnv helloWorld "u2" [⟨helloBytes, none⟩] 5).2.fs helloPath
      = some helloFile ∧
    (uploadFileHandler demoEnv helloWorld "u2" [⟨helloBytes, none⟩] 5).2.binlog
      = helloWorld.binlog ∧
    (storageClientConnHandler demoEnv freshWorld
        [.frame connectFrame, .frame (helloUpload "u1" 5), .frame (helloUpload "u2" 5)]).2
      = [.send { Result := .SUCCESS } none 0,
         .invoke OPERATION_UPLOAD true, .send helloReply none 0,
         .invoke OPERATION_UPLOAD true, .close] := by
  decide

/-- C3 fails on the code: on the 9-byte object file of `hello`, offset 1 and
length `MaxInt64` make `offset + length` wrap to a negative number, the length
is not clamped, and `seekRead` returns length `MaxInt64` and a reader that
yields the file positions 1 to 8: `ello` and the four footer bytes. -/
theorem seekRead_overflow_exposes_footer :
    add64 1 MaxInt64 = MinInt64 ∧
    seekRead helloWorld.fs helloPath 1 MaxInt64 = .ok (⟨helloFile, 1, MaxInt64⟩, MaxInt64) ∧
    ¬ (MaxInt64 ≤ helloFile.Size - 4) ∧
    LimitedReader.readAll ⟨helloFile, 1, MaxInt64⟩ = .ok [101, 108, 108, 111, 0, 0, 0, 0] ∧
    LimitedReader.positions ⟨helloFile, 1, MaxInt64⟩ = [1, 2, 3, 4, 5, 6, 7, 8] ∧
    downFileHandler demoEnv helloWorld (helloDownload "1" "9223372036854775807")
      = ⟨some { Result := .SUCCESS }, some ⟨helloFile, 1, MaxInt64⟩, MaxInt64, none⟩ := by
  decide

/-- C4 fails on the code: inspecting the object of the 5-byte body `hello`
returns SUCCESS with the configured group and the requested fileId, but with
`FileLength = 9`, the size of the file with its footer, not the payload size 5. -/
theorem inspect_reports_file_size :
    helloFile.Size = 9 ∧
    inspectFileHandler demoEnv helloWorld helloInspect
      = ⟨some { Result := .SUCCESS, Attributes := some [("info", demoEnv.marshalFileInfo
          { Group := "G01", FileId := helloFid, FileLength := 9, CreateTime := 1000 })] },
          none, 0, none⟩ := by
  decide

/-- C5 fails on the code: a download of a well-formed fileId whose object is
missing returns an ERROR header together with the error "file not found", not
NOT_FOUND without an error; the connection handler sends no reply for it and
closes the connection. `inspectFileHandler` answers the same request with
NOT_FOUND and no error. -/
theorem download_missing_is_error :
    freshWorld.fs helloPath = none ∧
    downFileHandler demoEnv freshWorld (helloDownload "0" "-1")
      = ⟨some { Result := .ERROR }, none, 0, some (.new "file not found")⟩ ∧
    (storageClientConnHandler demoEnv freshWorld
        [.frame connectFrame, .frame (plainFrame (helloDownload "0" "-1")),
         .frame (plainFrame helloInspect)]).2
      = [.send { Result := .SUCCESS } none 0, .invoke OPERATION_DOWNLOAD true, .close] ∧
    inspectFileHandler demoEnv freshWorld helloInspect
      = ⟨some { Result := .NOT_FOUND }, none, 0, none⟩ := by
  decide

end Godfs
